import Mathlib

/-!
Verification development for the conversation-orchestration core of the
blog-palantir-agent repository: context storage (src/db/context.ts),
intent classification (src/orchestrator/classifier.ts), and the
orchestrator control loop (src/orchestrator/index.ts).

Modelling conventions:
* ISO-8601 timestamps are modelled as natural numbers (milliseconds);
  both the JavaScript `Date` comparison and the SQLite lexicographic
  comparison of ISO strings agree with numeric order.
* The SQLite table `conversation_contexts` is modelled as a list of rows
  in insertion order; `SELECT ... .get()` returns the first matching row.
* `randomUUID()` is modelled by passing the fresh identifier explicitly.
* Rational numbers stand in for the JavaScript float confidences; every
  constant and comparison in the source is exact at this precision.
-/

namespace Palantir

/-- AgentType from src/shared/types.ts: 'content' | 'hubspot' | 'general'. -/
inductive AgentType where
  | content
  | hubspot
  | general
deriving DecidableEq, Repr

/-- EntityRef.type from src/shared/types.ts:
'contact' | 'deal' | 'company' | 'task'. -/
inductive EntityType where
  | contact
  | deal
  | company
  | task
deriving DecidableEq, Repr

/-- ConversationTurn from src/shared/types.ts. -/
structure ConversationTurn where
  role : String
  content : String
  timestamp : Nat
  agent : Option AgentType := none
deriving DecidableEq, Repr

/-- EntityRef from src/shared/types.ts. -/
structure EntityRef where
  type : EntityType
  id : String
  name : String
  mentionedAt : Nat
deriving DecidableEq, Repr

/-- The `entities` record of a ConversationContext. -/
structure Entities where
  contacts : List EntityRef
  deals : List EntityRef
  companies : List EntityRef
deriving DecidableEq, Repr

/-- ConversationContext from src/shared/types.ts.  `slackThreadTs = none`
models SQL NULL / JS undefined. -/
structure ConversationContext where
  id : String
  slackChannelId : String
  slackThreadTs : Option String
  userId : String
  activeAgent : Option AgentType
  history : List ConversationTurn
  entities : Entities
  createdAt : Nat
  lastActivityAt : Nat
  expiresAt : Nat
deriving DecidableEq, Repr

/-- ContextConfig from src/db/context.ts with its DEFAULT_CONFIG values. -/
structure ContextConfig where
  historyLength : Nat := 10
  expirationMinutes : Nat := 30
  maxEntitiesPerType : Nat := 5
deriving DecidableEq, Repr

/-- The key of one of the three stored entity lists. -/
inductive EntityKey where
  | contacts
  | deals
  | companies
deriving DecidableEq, Repr

/-- Read one of the three entity lists. -/
def Entities.getList (es : Entities) : EntityKey → List EntityRef
  | .contacts => es.contacts
  | .deals => es.deals
  | .companies => es.companies

/-- Replace one of the three entity lists. -/
def Entities.setList (es : Entities) : EntityKey → List EntityRef → Entities
  | .contacts, l => { es with contacts := l }
  | .deals, l => { es with deals := l }
  | .companies, l => { es with companies := l }

/-- The list addEntity stores into, from src/db/context.ts line 135:
`entity.type === 'task' ? 'contacts' : type + 's'` — a 'task' entity is
filed under contacts. -/
def listKey : EntityType → EntityKey
  | .task => .contacts
  | .contact => .contacts
  | .deal => .deals
  | .company => .companies

/-- The list getRecentEntity reads, from src/db/context.ts line 161:
`entities[type + 's']`; for 'task' the key 'tasks' does not exist and the
guard returns null. -/
def recentKey : EntityType → Option EntityKey
  | .contact => some .contacts
  | .deal => some .deals
  | .company => some .companies
  | .task => none

/-- JavaScript string truthiness of an optional string: undefined and the
empty string are falsy. -/
def truthyStr : Option String → Bool
  | some s => !(s = "")
  | none => false

/-- The thread value actually stored by `create` (the INSERT uses
`context.slackThreadTs || null`, coercing the falsy '' to NULL). -/
def normThread : Option String → Option String
  | some s => if s = "" then none else some s
  | none => none

/-- The database: the `conversation_contexts` rows in insertion order. -/
abbrev ContextDb := List ConversationContext

/-- ContextStorage.find: point lookup by (channel, thread); the query is
`slack_thread_ts = ?` when the threadTs argument is truthy and
`slack_thread_ts IS NULL` otherwise. -/
def find (db : ContextDb) (channelId : String) (threadTs : Option String) :
    Option ConversationContext :=
  db.find? (fun c =>
    decide (c.slackChannelId = channelId ∧ c.slackThreadTs = normThread threadTs))

/-- ContextStorage.getById: `SELECT * WHERE id = ?`. -/
def getById (db : ContextDb) (id : String) : Option ConversationContext :=
  db.find? (fun c => decide (c.id = id))

/-- ContextStorage.isExpired: `new Date(context.expiresAt) < new Date()`. -/
def isExpired (c : ConversationContext) (now : Nat) : Bool :=
  decide (c.expiresAt < now)

/-- ContextStorage.create: builds a fresh context (fresh expiry
`now + expirationMinutes minutes`, empty history and entity lists) and
INSERTs it; the stored row normalises a falsy thread id to NULL while the
returned in-memory object keeps the argument as passed. -/
def create (cfg : ContextConfig) (db : ContextDb) (channelId : String)
    (threadTs : Option String) (userId : Option String) (freshId : String)
    (now : Nat) : ConversationContext × ContextDb :=
  let uid := match userId with
    | some u => if u = "" then "unknown" else u
    | none => "unknown"
  let ctx : ConversationContext :=
    { id := freshId
      slackChannelId := channelId
      slackThreadTs := threadTs
      userId := uid
      activeAgent := none
      history := []
      entities := { contacts := [], deals := [], companies := [] }
      createdAt := now
      lastActivityAt := now
      expiresAt := now + cfg.expirationMinutes * 60 * 1000 }
  (ctx, db ++ [{ ctx with slackThreadTs := normThread threadTs }])

/-- ContextStorage.touchActivity: refreshes last_activity_at always and
expires_at only for non-threaded contexts. -/
def touchActivity (cfg : ContextConfig) (db : ContextDb) (id : String)
    (isThreaded : Bool) (now : Nat) : ContextDb :=
  db.map (fun r =>
    if r.id = id then
      if isThreaded then { r with lastActivityAt := now }
      else
        { r with lastActivityAt := now
                 expiresAt := now + cfg.expirationMinutes * 60 * 1000 }
    else r)

/-- ContextStorage.getOrCreate: returns the existing row when it is
threaded (truthy threadTs) or unexpired, touching its activity; otherwise
creates a new context. -/
def getOrCreate (cfg : ContextConfig) (db : ContextDb) (channelId : String)
    (threadTs : Option String) (userId : Option String) (freshId : String)
    (now : Nat) : ConversationContext × ContextDb :=
  match find db channelId threadTs with
  | some existing =>
    if truthyStr threadTs || !(isExpired existing now) then
      (existing, touchActivity cfg db existing.id (truthyStr threadTs) now)
    else create cfg db channelId threadTs userId freshId now
  | none => create cfg db channelId threadTs userId freshId now

/-- ContextStorage.update: UPDATE of active_agent, history, entities,
last_activity_at and expires_at for the row with the context's id. -/
def update (cfg : ContextConfig) (db : ContextDb) (ctx : ConversationContext)
    (now : Nat) : ContextDb :=
  db.map (fun r =>
    if r.id = ctx.id then
      { r with activeAgent := ctx.activeAgent
               history := ctx.history
               entities := ctx.entities
               lastActivityAt := now
               expiresAt := now + cfg.expirationMinutes * 60 * 1000 }
    else r)

/-- JavaScript `array.slice(-n)`: the last n elements — except that
`slice(-0)` is `slice(0)`, the whole array. -/
def jsSliceLast (n : Nat) (l : List α) : List α :=
  if n = 0 then l else l.drop (l.length - n)

/-- The history trimming step of addTurn: push already done, then
`if (history.length > historyLength) history = history.slice(-historyLength)`. -/
def trimHistory (cfg : ContextConfig) (h : List ConversationTurn) :
    List ConversationTurn :=
  if cfg.historyLength < h.length then jsSliceLast cfg.historyLength h else h

/-- ContextStorage.addTurn: append the turn, trim from the front when over
the cap, persist via update; a no-op when the context does not exist. -/
def addTurn (cfg : ContextConfig) (db : ContextDb) (contextId : String)
    (turn : ConversationTurn) (now : Nat) : ContextDb :=
  match getById db contextId with
  | none => db
  | some c => update cfg db { c with history := trimHistory cfg (c.history ++ [turn]) } now

/-- `entityList[existingIndex] = entity` after a successful findIndex:
replace the first element whose id matches. -/
def replaceFirstById (l : List EntityRef) (e : EntityRef) : List EntityRef :=
  match l with
  | [] => []
  | x :: r => if x.id = e.id then e :: r else x :: replaceFirstById r e

/-- The list mutation inside addEntity: update in place when the id is
already present (`findIndex(...) >= 0`), otherwise push and, when over
the cap, shift the oldest element off the front. -/
def addEntityToList (cfg : ContextConfig) (l : List EntityRef) (e : EntityRef) :
    List EntityRef :=
  if l.any (fun x => decide (x.id = e.id)) then replaceFirstById l e
  else
    let l2 := l ++ [e]
    if cfg.maxEntitiesPerType < l2.length then l2.tail else l2

/-- ContextStorage.addEntity: routes the entity to the list chosen by
`listKey` (a 'task' entity goes to the contacts list), applies the
dedup/cap rule, and persists via update. -/
def addEntity (cfg : ContextConfig) (db : ContextDb) (contextId : String)
    (e : EntityRef) (now : Nat) : ContextDb :=
  match getById db contextId with
  | none => db
  | some c =>
    let key := listKey e.type
    let es := c.entities.setList key (addEntityToList cfg (c.entities.getList key) e)
    update cfg db { c with entities := es } now

/-- ContextStorage.getRecentEntity: the last element (by list position) of
the list for the requested type, or null. -/
def getRecentEntity (db : ContextDb) (contextId : String) (t : EntityType) :
    Option EntityRef :=
  match getById db contextId with
  | none => none
  | some c =>
    match recentKey t with
    | none => none
    | some k => (c.entities.getList k).getLast?

/-- ContextStorage.cleanupExpired:
`DELETE WHERE expires_at < now AND slack_thread_ts IS NULL`, returning the
number of deleted rows together with the surviving table. -/
def cleanupExpired (db : ContextDb) (now : Nat) : Nat × ContextDb :=
  let gone := db.filter (fun c => decide (c.expiresAt < now ∧ c.slackThreadTs = none))
  let kept := db.filter (fun c => !decide (c.expiresAt < now ∧ c.slackThreadTs = none))
  (gone.length, kept)

/-! ## Intent classifier (src/orchestrator/classifier.ts) -/

/-- ExtractedEntity from src/shared/types.ts.  The `type` field is typed as
an enum in TypeScript but nothing at runtime enforces it (validateEntities
copies it unchecked), so it is modelled as a raw string. -/
structure ExtractedEntity where
  type : String
  value : String
  resolved_id : Option String := none
  resolved_name : Option String := none
deriving DecidableEq, Repr

/-- ClassificationResult from src/shared/types.ts. -/
structure ClassificationResult where
  agent : AgentType
  intent : String
  confidence : ℚ
  entities : List ExtractedEntity
deriving DecidableEq, Repr

/-- The kinds the ExtractedEntity.type union enumerates in
src/shared/types.ts. -/
def recognizedEntityKinds : List String :=
  ["contact", "deal", "company", "task", "date", "amount"]

/-- Whitespace for the regex class `\s` and for String.prototype.trim
(restricted to the ASCII whitespace that can actually occur here). -/
def isWsChar (c : Char) : Bool :=
  c = ' ' || c = '\t' || c = '\n' || c = '\r' || c = '\x0b' || c = '\x0c'

/-- JavaScript String.prototype.trim. -/
def jsTrim (s : String) : String :=
  String.mk (((s.data.dropWhile isWsChar).reverse.dropWhile isWsChar).reverse)

/-- ASCII lowercase of one character (String.prototype.toLowerCase; the
inputs here are ASCII). -/
def lowerChar (c : Char) : Char :=
  if 'A' ≤ c ∧ c ≤ 'Z' then Char.ofNat (c.toNat + 32) else c

/-- String.prototype.toLowerCase. -/
def jsToLower (s : String) : String := String.mk (s.data.map lowerChar)

/-- A backtracking matcher in continuation style: given the input and a
continuation on the rest, decide whether some parse succeeds.  This is the
semantics of the (starred/optional/alternation) regex fragments the quick
patterns use. -/
abbrev Matcher := List Char → (List Char → Bool) → Bool

/-- Consume a literal. -/
def litConsume : List Char → List Char → Option (List Char)
  | [], s => some s
  | _ :: _, [] => none
  | p :: ps, c :: cs => if p = c then litConsume ps cs else none

/-- Matcher for a literal word. -/
def mLit (w : String) : Matcher := fun s k =>
  match litConsume w.data s with
  | some r => k r
  | none => false

/-- Alternation `(a|b|...)`. -/
def mAlt (ms : List Matcher) : Matcher := fun s k => ms.any (fun m => m s k)

/-- Alternation of literal words. -/
def mAltLits (ws : List String) : Matcher := mAlt (ws.map mLit)

/-- Sequencing. -/
def mSeq (a b : Matcher) : Matcher := fun s k => a s (fun r => b r k)

/-- The empty pattern. -/
def mEps : Matcher := fun s k => k s

/-- Sequencing of a pattern list. -/
def mSeqs (ms : List Matcher) : Matcher := ms.foldr mSeq mEps

/-- Optional group `(...)?` with backtracking. -/
def mOpt (m : Matcher) : Matcher := fun s k => m s k || k s

/-- Kleene star over whitespace, `\s*`. -/
def mWsStarGo (k : List Char → Bool) : List Char → Bool
  | [] => k []
  | c :: r => k (c :: r) || (isWsChar c && mWsStarGo k r)

/-- `\s*`. -/
def mWsStar : Matcher := fun s k => mWsStarGo k s

/-- `\s+`. -/
def mWs1 : Matcher := fun s k =>
  match s with
  | [] => false
  | c :: r => isWsChar c && mWsStarGo k r

/-- `.*` — any characters except newline, with backtracking. -/
def mDotStarGo (k : List Char → Bool) : List Char → Bool
  | [] => k []
  | c :: r => k (c :: r) || (!(c = '\n') && mDotStarGo k r)

/-- `.*`. -/
def mDotStar : Matcher := fun s k => mDotStarGo k s

/-- `regex.test` for a pattern anchored at the start (`^...`). -/
def mTest (m : Matcher) (s : List Char) : Bool := m s (fun _ => true)

/-- `regex.test` for an unanchored pattern: try every start position. -/
def mSearch (m : Matcher) : List Char → Bool
  | [] => m [] (fun _ => true)
  | c :: r => m (c :: r) (fun _ => true) || mSearch m r

/-- The content-agent quick patterns of quickClassify. -/
def contentQuickMatch (lower : List Char) : Bool :=
  mTest (mSeqs [mAltLits ["write", "draft", "create", "edit"], mWs1,
    mOpt (mSeq (mLit "a") mWs1),
    mAltLits ["linkedin", "post", "article", "content"]]) lower ||
  mTest (mSeqs [mLit "show", mWs1, mOpt (mSeq (mLit "my") mWs1),
    mLit "draft", mOpt (mLit "s")]) lower ||
  mTest (mSeqs [mAltLits ["approve", "reject"], mWs1,
    mAltLits ["draft", "this"]]) lower ||
  mTest (mSeqs [mLit "what", mDotStar, mLit "topic", mOpt (mLit "s")]) lower ||
  mTest (mSeqs [mLit "add", mWs1, mLit "topic"]) lower

/-- The hubspot-agent quick patterns of quickClassify. -/
def hubspotQuickMatch (lower : List Char) : Bool :=
  mTest (mSeqs [mAltLits ["add", "create", "update", "find", "show", "list"],
    mWs1, mOpt (mSeq (mLit "a") mWs1),
    mAltLits ["contact", "company", "deal", "task", "note"]]) lower ||
  mTest (mSeqs [mLit "log", mWs1, mOpt (mSeq (mLit "a") mWs1), mLit "note"]) lower ||
  mTest (mSeqs [mAltLits ["create", "add"], mWs1, mDotStar, mLit "as", mWs1,
    mLit "a", mWs1, mLit "contact"]) lower ||
  mTest (mSeqs [mLit "follow", mWsStar, mLit "up", mWs1,
    mAltLits ["with", "on"]]) lower ||
  mSearch (mSeqs [mLit "pipeline", mWs1, mLit "summary"]) lower ||
  mSearch (mSeqs [mLit "show", mWs1, mOpt (mSeq (mLit "my") mWs1),
    mAltLits ["deals", "tasks", "contacts"]]) lower

/-- The general-agent quick patterns of quickClassify (`^help$` is the one
pattern anchored at both ends). -/
def generalQuickMatch (lower : List Char) : Bool :=
  mTest (mAlt [mLit "hi", mLit "hello", mLit "hey",
    mSeqs [mLit "good", mWs1, mAltLits ["morning", "afternoon", "evening"]]]) lower ||
  mTest (mAlt [mLit "thanks", mSeqs [mLit "thank", mWs1, mLit "you"]]) lower ||
  decide (lower = "help".data) ||
  mTest (mSeqs [mLit "what", mWs1, mLit "can", mWs1, mLit "you", mWs1,
    mLit "do"]) lower

/-- IntentClassifier.quickClassify: deterministic first pass over
`message.toLowerCase().trim()`; the first matching pattern family returns
its fixed result at confidence 0.95 with no generative call. -/
def quickClassify (message : String) : Option ClassificationResult :=
  let lower := (jsTrim (jsToLower message)).data
  if contentQuickMatch lower then
    some { agent := .content, intent := "Content operation",
           confidence := 19/20, entities := [] }
  else if hubspotQuickMatch lower then
    some { agent := .hubspot, intent := "HubSpot operation",
           confidence := 19/20, entities := [] }
  else if generalQuickMatch lower then
    some { agent := .general, intent := "Greeting or general query",
           confidence := 19/20, entities := [] }
  else none

/-! ### JSON handling of IntentClassifier.classify

`JSON.parse` is an ECMAScript builtin, not repository code; it is passed
in as an opaque `parse` function returning `none` when it would throw.
The JSON value universe below is what the post-parse validation code
inspects. -/

/-- A parsed JSON value (JS `undefined` is represented by `Option`). -/
inductive JVal where
  | jnull
  | jbool (b : Bool)
  | jnum (q : ℚ)
  | jstr (s : String)
  | jarr (elems : List JVal)
  | jobj (fields : List (String × JVal))

/-- JavaScript truthiness of a JSON value. -/
def truthy : JVal → Bool
  | .jnull => false
  | .jbool b => b
  | .jnum q => !(q = 0)
  | .jstr s => !(s = "")
  | .jarr _ => true
  | .jobj _ => true

/-- Property access `v.key`: a field of an object, otherwise undefined
(JSON objects after JSON.parse have unique keys; the last occurrence
wins as in JSON). -/
def getField : JVal → String → Option JVal
  | .jobj fs, k => ((fs.filter (fun p => decide (p.1 = k))).getLast?).map (fun p => p.2)
  | _, _ => none

/-- Truthiness of a possibly-undefined value. -/
def truthyOpt : Option JVal → Bool
  | some v => truthy v
  | none => false

/-- Join with commas (Array.prototype.toString). -/
def joinComma : List String → String
  | [] => ""
  | [s] => s
  | s :: t :: r => s ++ "," ++ joinComma (t :: r)

/-- String() coercion for non-array values.  JavaScript number formatting
is approximated by the rational's print form; no theorem depends on the
stringification of numeric or nested-array values. -/
def jprimToString : JVal → String
  | .jnull => "null"
  | .jbool b => if b then "true" else "false"
  | .jnum q => toString q
  | .jstr s => s
  | .jarr _ => ""
  | .jobj _ => "[object Object]"

/-- String() coercion: arrays join their elements with commas (one level;
`String([])` is the empty string). -/
def jvalToString : JVal → String
  | .jarr xs => joinComma (xs.map jprimToString)
  | v => jprimToString v

/-- String() of a field that is present (the undefined case is unreachable
behind a truthiness guard). -/
def optFieldToString : Option JVal → String
  | some v => jvalToString v
  | none => "undefined"

/-- The filter in IntentClassifier.validateEntities:
`e && typeof e === 'object' && e.type && e.value` — null is falsy, objects
and arrays are typeof 'object', and the two fields must be truthy; the
type is never compared against the recognized kinds. -/
def entityKept (jv : JVal) : Bool :=
  truthy jv &&
  (match jv with | .jobj _ => true | .jarr _ => true | _ => false) &&
  truthyOpt (getField jv "type") &&
  truthyOpt (getField jv "value")

/-- The map in IntentClassifier.validateEntities: the raw type field
(stringified here; see ExtractedEntity), `String(e.value)`, and the raw
resolved fields. -/
def mkExtracted (jv : JVal) : ExtractedEntity :=
  { type := optFieldToString (getField jv "type")
    value := optFieldToString (getField jv "value")
    resolved_id := match getField jv "resolved_id" with
      | some (.jstr s) => some s
      | _ => none
    resolved_name := match getField jv "resolved_name" with
      | some (.jstr s) => some s
      | _ => none }

/-- The array the entity filter runs over: `parsed.entities || []` followed
by the `Array.isArray` guard. -/
def entArray (o : Option JVal) : List JVal :=
  match o with
  | some (.jarr xs) => xs
  | _ => []

/-- IntentClassifier.validateEntities. -/
def validateEntities (o : Option JVal) : List ExtractedEntity :=
  ((entArray o).filter entityKept).map mkExtracted

/-- IntentClassifier.validateAgent: keep a string in the known enum,
coerce anything else to 'general'. -/
def validateAgentJ (o : Option JVal) : AgentType :=
  match o with
  | some (.jstr s) =>
    if s = "content" then .content
    else if s = "hubspot" then .hubspot
    else if s = "general" then .general
    else .general
  | _ => .general

/-- `parsed.intent || 'Unknown intent'` (a truthy non-string intent is
kept as its stringification; no theorem depends on that corner). -/
def intentOf (o : Option JVal) : String :=
  match o with
  | some v => if truthy v then jvalToString v else "Unknown intent"
  | none => "Unknown intent"

/-- `typeof parsed.confidence === 'number' ? parsed.confidence : 0.5`. -/
def confidenceOf (o : Option JVal) : ℚ :=
  match o with
  | some (.jnum q) => q
  | _ => 1/2

/-- Drop everything before the first '{'. -/
def dropUntilBrace : List Char → Option (List Char)
  | [] => none
  | c :: r => if c = '{' then some (c :: r) else dropUntilBrace r

/-- Keep everything up to (and including) the last '}'. -/
def cutAtLastClose (l : List Char) : Option (List Char) :=
  let rev := l.reverse.dropWhile (fun c => !(c = '}'))
  if rev.isEmpty then none else some rev.reverse

/-- `response.match(/\x7b[\s\S]*\x7d/)`: the greedy brace-delimited slice
from the first opening brace to the last closing brace after it, or null
when no such pair exists. -/
def braceMatch (s : String) : Option String :=
  match dropUntilBrace s.data with
  | none => none
  | some t => (cutAtLastClose t).map String.mk

/-- The fixed fallback result of IntentClassifier.classify on any caught
error or on a response with no brace-delimited JSON object. -/
def classifyFallback : ClassificationResult :=
  { agent := .general, intent := "Classification failed",
    confidence := 3/10, entities := [] }

/-- IntentClassifier.classify, as a function of the generative call's
outcome (`Except.error` models a thrown transport error; the prompt built
from message and context does not influence this mapping).  The try/catch
turns a throwing `JSON.parse` (parse = none) into the fallback as well;
no branch re-raises. -/
def classifyResult (parse : String → Option JVal)
    (llmOutcome : Except Unit String) : ClassificationResult :=
  match llmOutcome with
  | .error _ => classifyFallback
  | .ok response =>
    match braceMatch response with
    | none => classifyFallback
    | some jsonText =>
      match parse jsonText with
      | none => classifyFallback
      | some parsed =>
        { agent := validateAgentJ (getField parsed "agent")
          intent := intentOf (getField parsed "intent")
          confidence := confidenceOf (getField parsed "confidence")
          entities := validateEntities (getField parsed "entities") }

/-! ## Orchestrator (src/orchestrator/index.ts) -/

/-- The follow-up indicator substrings of Orchestrator.isFollowUp. -/
def followUpIndicators : List String :=
  ["also", "and", "actually", "wait", "oh",
   "yes", "no", "ok", "okay", "sure",
   "what about", "how about", "can you also",
   "he", "she", "they", "it", "them", "that", "this"]

/-- List-of-chars substring test (String.prototype.includes). -/
def startsWithCL : List Char → List Char → Bool
  | [], _ => true
  | _ :: _, [] => false
  | p :: ps, c :: cs => p = c && startsWithCL ps cs

/-- Substring occurrence anywhere. -/
def containsCL (pat : List Char) : List Char → Bool
  | [] => startsWithCL pat []
  | c :: r => startsWithCL pat (c :: r) || containsCL pat r

/-- `s.includes(sub)`. -/
def jsIncludes (s sub : String) : Bool := containsCL sub.data s.data

/-- Orchestrator.isFollowUp: only messages shorter than 50 characters are
candidates, and then only when they contain one of the indicator
substrings of the lowercased trimmed message. -/
def isFollowUp (message : String) : Bool :=
  let lower := jsTrim (jsToLower message)
  if message.length < 50 then
    followUpIndicators.any (fun ind => jsIncludes lower ind)
  else false

/-- Orchestrator.classifyWithContext: quick patterns first; then the
follow-up bias when an active agent exists; else the generative fallback.
The second component records whether the generative model was called. -/
def classifyWithContext (parse : String → Option JVal) (message : String)
    (context : ConversationContext) (llmOutcome : Except Unit String) :
    ClassificationResult × Bool :=
  match quickClassify message with
  | some quickResult => (quickResult, false)
  | none =>
    match context.activeAgent with
    | some activeAgent =>
      if isFollowUp message then
        ({ agent := activeAgent, intent := "Follow-up to previous message",
           confidence := 17/20, entities := [] }, false)
      else (classifyResult parse llmOutcome, true)
    | none => (classifyResult parse llmOutcome, true)

/-- ContextManager.resolvePronoun: group pronouns try the most recent
contact then the most recent company; singular personal pronouns the most
recent contact only; impersonal pronouns the most recent deal then
company; anything else (or a missing context) resolves to null. -/
def resolvePronoun (db : ContextDb) (contextId : String) (pronoun : String) :
    Option EntityRef :=
  match getById db contextId with
  | none => none
  | some _ =>
    let p := jsToLower pronoun
    if p = "they" ∨ p = "them" ∨ p = "their" then
      match getRecentEntity db contextId .contact with
      | some contact => some contact
      | none =>
        match getRecentEntity db contextId .company with
        | some company => some company
        | none => none
    else if p ∈ (["he", "him", "his", "she", "her", "hers"] : List String) then
      getRecentEntity db contextId .contact
    else if p = "it" ∨ p = "its" then
      match getRecentEntity db contextId .deal with
      | some deal => some deal
      | none => getRecentEntity db contextId .company
    else none

/-- The per-entity lambda of Orchestrator.resolveEntities: an entity with
a truthy resolved_id is returned as-is; otherwise, when the lowercased
value is one of the nine listed pronouns, resolvePronoun is consulted and
a successful resolution fills resolved_id/resolved_name; in every other
case the entity passes through unchanged. -/
def resolveEntity (db : ContextDb) (contextId : String) (e : ExtractedEntity) :
    ExtractedEntity :=
  if truthyStr e.resolved_id then e
  else
    let v := jsToLower e.value
    if v ∈ (["he", "she", "him", "her", "they", "them", "it", "this", "that"] :
        List String) then
      match resolvePronoun db contextId v with
      | some r => { e with resolved_id := some r.id, resolved_name := some r.name }
      | none => e
    else e

/-- Orchestrator.resolveEntities. -/
def resolveEntities (db : ContextDb) (classification : ClassificationResult)
    (context : ConversationContext) : List ExtractedEntity :=
  classification.entities.map (resolveEntity db context.id)

/-- Orchestrator.getContext (the public read path): it delegates to
ContextManager.getContext = storage.getOrCreate — with an undefined
userId — and then re-reads the row by id via getFullContext/getById. -/
def orchGetContext (cfg : ContextConfig) (db : ContextDb) (channelId : String)
    (threadTs : Option String) (freshId : String) (now : Nat) :
    Option ConversationContext × ContextDb :=
  let p := getOrCreate cfg db channelId threadTs none freshId now
  (getById p.2 p.1.id, p.2)

/-- Number of rows stored for one (channel, thread-value) pair. -/
def countPair (db : ContextDb) (channelId : String) (t : Option String) : Nat :=
  (db.filter (fun c =>
    decide (c.slackChannelId = channelId ∧ c.slackThreadTs = t))).length

/-! ### Concrete fixtures used by witnesses and counterexamples -/

/-- The default configuration (DEFAULT_CONFIG). -/
def cCfg : ContextConfig := {}

/-- A parse oracle for a JSON.parse that always throws. -/
def pNone : String → Option JVal := fun _ => none

/-- A parse oracle returning a fixed parsed value. -/
def pConst (v : JVal) : String → Option JVal := fun _ => some v

/-- A concrete contact entity, by serial number. -/
def cEnt (i : Nat) : EntityRef :=
  { type := .contact, id := "e" ++ toString i, name := "E" ++ toString i,
    mentionedAt := i }

/-- A concrete threaded context with empty history and entities. -/
def cCtx : ConversationContext :=
  { id := "ctx1", slackChannelId := "C1", slackThreadTs := some "t1",
    userId := "U1", activeAgent := none, history := [],
    entities := { contacts := [], deals := [], companies := [] },
    createdAt := 0, lastActivityAt := 0, expiresAt := 1800000 }

/-- cCtx with an active hubspot agent. -/
def cCtxA : ConversationContext := { cCtx with activeAgent := some .hubspot }

/-- The most recent contact of cCtxC. -/
def cMaria : EntityRef :=
  { type := .contact, id := "c1", name := "Maria Lopez", mentionedAt := 5 }

/-- cCtx with one recent contact. -/
def cCtxC : ConversationContext :=
  { cCtx with entities := { contacts := [cMaria], deals := [], companies := [] } }

/-- A concrete 'task' entity. -/
def cTask : EntityRef :=
  { type := .task, id := "t1", name := "Follow up", mentionedAt := 9 }

/-- A concrete user turn, by serial number. -/
def cTurn (i : Nat) : ConversationTurn :=
  { role := "user", content := "m" ++ toString i, timestamp := i }

/-- A classification carrying one unresolved extracted entity. -/
def cClassOf (v : String) : ClassificationResult :=
  { agent := .hubspot, intent := "x", confidence := 1,
    entities := [{ type := "contact", value := v }] }

/-- A parsed model response whose entity list holds one entity of an
unrecognized kind and one whose value is an empty array. -/
def cParsed : JVal :=
  .jobj [("agent", .jstr "hubspot"),
         ("entities", .jarr
           [.jobj [("type", .jstr "banana"), ("value", .jstr "x")],
            .jobj [("type", .jstr "contact"), ("value", .jarr [])]])]

/-- A parsed response with one well-formed contact entity. -/
def cParsedOk : JVal :=
  .jobj [("agent", .jstr "hubspot"),
         ("entities", .jarr
           [.jobj [("type", .jstr "contact"), ("value", .jstr "Maria")]])]

/-! ## Helper lemmas -/

theorem getById_eq_id {db : ContextDb} {id : String} {c : ConversationContext}
    (h : getById db id = some c) : c.id = id := by
  have hp := List.find?_some h
  simpa using hp

theorem getById_mem {db : ContextDb} {id : String} {c : ConversationContext}
    (h : getById db id = some c) : c ∈ db :=
  List.mem_of_find?_eq_some h

theorem getById_map_keep (g : ConversationContext → ConversationContext)
    (hg : ∀ r, (g r).id = r.id) (db : ContextDb) (id : String)
    (c : ConversationContext) (h : getById db id = some c) :
    getById (db.map (fun r => if r.id = id then g r else r)) id = some (g c) := by
  induction db with
  | nil => simp [getById] at h
  | cons d rest ih =>
    by_cases hd : d.id = id
    · rw [getById, List.find?_cons_of_pos _ (by simpa using hd)] at h
      obtain rfl : d = c := by simpa using h
      simp only [List.map_cons, if_pos hd]
      rw [getById, List.find?_cons_of_pos _ (by simp [hg, hd])]
    · rw [getById, List.find?_cons_of_neg _ (by simpa using hd)] at h
      simp only [List.map_cons, if_neg hd]
      rw [getById, List.find?_cons_of_neg _ (by simpa using hd)]
      exact ih h

theorem getById_update (cfg : ContextConfig) (db : ContextDb)
    (ctx : ConversationContext) (now : Nat) (c : ConversationContext)
    (h : getById db ctx.id = some c) :
    getById (update cfg db ctx now) ctx.id = some
      { c with activeAgent := ctx.activeAgent, history := ctx.history,
               entities := ctx.entities, lastActivityAt := now,
               expiresAt := now + cfg.expirationMinutes * 60 * 1000 } := by
  exact getById_map_keep
    (fun r => { r with activeAgent := ctx.activeAgent, history := ctx.history,
                       entities := ctx.entities, lastActivityAt := now,
                       expiresAt := now + cfg.expirationMinutes * 60 * 1000 })
    (fun r => rfl) db ctx.id c h

theorem getById_addTurn (cfg : ContextConfig) (db : ContextDb) (id : String)
    (turn : ConversationTurn) (now : Nat) (c : ConversationContext)
    (h : getById db id = some c) :
    getById (addTurn cfg db id turn now) id = some
      { c with history := trimHistory cfg (c.history ++ [turn]),
               lastActivityAt := now,
               expiresAt := now + cfg.expirationMinutes * 60 * 1000 } := by
  have hid : c.id = id := getById_eq_id h
  rw [addTurn, h]
  have h2 : getById db ({ c with
      history := trimHistory cfg (c.history ++ [turn]) }).id = some c := by
    simpa [hid] using h
  have h3 := getById_update cfg db
    { c with history := trimHistory cfg (c.history ++ [turn]) } now c h2
  simpa [hid] using h3

theorem getById_addEntity (cfg : ContextConfig) (db : ContextDb) (id : String)
    (e : EntityRef) (now : Nat) (c : ConversationContext)
    (h : getById db id = some c) :
    getById (addEntity cfg db id e now) id = some
      { c with entities := (c.entities.setList (listKey e.type)
                 (addEntityToList cfg (c.entities.getList (listKey e.type)) e)),
               lastActivityAt := now,
               expiresAt := now + cfg.expirationMinutes * 60 * 1000 } := by
  have hid : c.id = id := getById_eq_id h
  rw [addEntity, h]
  have h2 : getById db ({ c with entities := (c.entities.setList (listKey e.type)
      (addEntityToList cfg (c.entities.getList (listKey e.type)) e)) }).id = some c := by
    simpa [hid] using h
  have h3 := getById_update cfg db
    { c with entities := (c.entities.setList (listKey e.type)
        (addEntityToList cfg (c.entities.getList (listKey e.type)) e)) } now c h2
  simpa [hid] using h3

theorem getList_setList (es : Entities) (k : EntityKey) (l : List EntityRef) :
    (es.setList k l).getList k = l := by
  cases k <;> rfl

theorem addTurn_foldl_history (cfg : ContextConfig) (id : String)
    (ops : List (ConversationTurn × Nat)) :
    ∀ (db : ContextDb) (c0 : ConversationContext), getById db id = some c0 →
      ∃ c, getById (ops.foldl (fun d p => addTurn cfg d id p.1 p.2) db) id = some c ∧
        c.history = ops.foldl (fun h p => trimHistory cfg (h ++ [p.1])) c0.history := by
  induction ops with
  | nil => intro db c0 h0; exact ⟨c0, h0, rfl⟩
  | cons p rest ih =>
    intro db c0 h0
    have h1 := getById_addTurn cfg db id p.1 p.2 c0 h0
    obtain ⟨c, hc, hhist⟩ := ih (addTurn cfg db id p.1 p.2) _ h1
    exact ⟨c, by simpa using hc, by simpa using hhist⟩

theorem trimHistory_foldl_drop (cfg : ContextConfig)
    (hmax : 0 < cfg.historyLength) (ts : List ConversationTurn) :
    ts.foldl (fun h t => trimHistory cfg (h ++ [t])) [] =
      ts.drop (ts.length - cfg.historyLength) := by
  induction ts using List.reverseRecOn with
  | nil => simp
  | append_singleton ts t ih =>
    rw [List.foldl_append, List.foldl_cons, List.foldl_nil, ih]
    by_cases hcase : ts.length < cfg.historyLength
    · have h1 : ts.length - cfg.historyLength = 0 := by omega
      rw [h1, List.drop_zero, trimHistory, if_neg (by
        simp only [List.length_append, List.length_cons, List.length_nil]
        omega)]
      have h2 : (ts ++ [t]).length - cfg.historyLength = 0 := by simp; omega
      rw [h2, List.drop_zero]
    · have hm : cfg.historyLength ≤ ts.length := by omega
      have hdlen : (ts.drop (ts.length - cfg.historyLength)).length =
          cfg.historyLength := by
        rw [List.length_drop]; omega
      rw [trimHistory, if_pos (by
        simp only [List.length_append, List.length_cons, List.length_nil, hdlen]
        omega)]
      rw [jsSliceLast, if_neg (by omega)]
      have hlen2 : (ts.drop (ts.length - cfg.historyLength) ++ [t]).length -
          cfg.historyLength = 1 := by simp [hdlen]
      rw [hlen2]
      have hstep : (ts.drop (ts.length - cfg.historyLength) ++ [t]).drop 1 =
          (ts.drop (ts.length - cfg.historyLength)).drop 1 ++ [t] := by
        refine List.drop_append_of_le_length ?_
        omega
      rw [hstep, List.drop_drop]
      have hlen3 : (ts ++ [t]).length - cfg.historyLength =
          (ts.length - cfg.historyLength) + 1 := by
        simp only [List.length_append, List.length_cons, List.length_nil]
        omega
      rw [hlen3, List.drop_append_of_le_length (by omega)]

/-- C1: for every context (created with empty history) and every sequence
of addTurn calls on it under a positive history cap, the stored history
never exceeds the cap — the cap applies after every prefix of the
sequence, and the whole sequence is quantified — and equals exactly the
most recent turns in their original append order, the oldest dropped
first.  (The positivity hypothesis reflects that `slice(-0)` would keep
the whole array; the default cap is 10.) -/
theorem addTurn_history_cap (cfg : ContextConfig)
    (hmax : 0 < cfg.historyLength) (db : ContextDb) (id : String)
    (c0 : ConversationContext) (h0 : getById db id = some c0)
    (hinit : c0.history = []) (ops : List (ConversationTurn × Nat)) :
    ∃ c, getById (ops.foldl (fun d p => addTurn cfg d id p.1 p.2) db) id = some c ∧
      c.history = (ops.map (fun p => p.1)).drop
        (ops.length - cfg.historyLength) ∧
      c.history.length ≤ cfg.historyLength := by
  obtain ⟨c, hc, hhist⟩ := addTurn_foldl_history cfg id ops db c0 h0
  rw [hinit] at hhist
  have hfold : ops.foldl (fun h p => trimHistory cfg (h ++ [p.1])) [] =
      (ops.map (fun p => p.1)).foldl (fun h t => trimHistory cfg (h ++ [t])) [] := by
    rw [List.foldl_map]
  rw [hfold, trimHistory_foldl_drop cfg hmax] at hhist
  refine ⟨c, hc, ?_, ?_⟩
  · simpa [List.length_map] using hhist
  · rw [hhist, List.length_drop, List.length_map]; omega

/-- Witness for C1 at the default configuration (cap 10) and a concrete
run of 12 turns: the surviving history is turns 3 through 12. -/
theorem addTurn_history_cap_wit :
    ∃ c, getById (((List.range 12).map (fun i => (cTurn i, i))).foldl
        (fun d p => addTurn cCfg d "ctx1" p.1 p.2) [cCtx]) "ctx1" = some c ∧
      c.history = (((List.range 12).map (fun i => (cTurn i, i))).map
        (fun p => p.1)).drop
        (((List.range 12).map (fun i => (cTurn i, i))).length - cCfg.historyLength) ∧
      c.history.length ≤ cCfg.historyLength :=
  addTurn_history_cap cCfg (by decide) [cCtx] "ctx1" cCtx (by decide) (by decide) _

theorem replaceFirstById_length (l : List EntityRef) (e : EntityRef) :
    (replaceFirstById l e).length = l.length := by
  induction l with
  | nil => rfl
  | cons x r ih =>
    rw [replaceFirstById]
    by_cases hx : x.id = e.id
    · rw [if_pos hx]; simp
    · rw [if_neg hx]; simpa using ih

theorem replaceFirstById_map_id (l : List EntityRef) (e : EntityRef) :
    (replaceFirstById l e).map (fun x => x.id) = l.map (fun x => x.id) := by
  induction l with
  | nil => rfl
  | cons x r ih =>
    rw [replaceFirstById]
    by_cases hx : x.id = e.id
    · rw [if_pos hx]; simp [hx]
    · rw [if_neg hx]; simpa using ih

theorem replaceFirstById_mem (l : List EntityRef) (e : EntityRef)
    (h : l.any (fun x => decide (x.id = e.id)) = true) :
    e ∈ replaceFirstById l e := by
  induction l with
  | nil => simp at h
  | cons x r ih =>
    rw [replaceFirstById]
    by_cases hx : x.id = e.id
    · rw [if_pos hx]; exact List.mem_cons_self _ _
    · rw [if_neg hx]
      have h2 : r.any (fun x => decide (x.id = e.id)) = true := by
        simp only [List.any_cons, Bool.or_eq_true] at h
        rcases h with h | h
        · exact absurd (of_decide_eq_true h) hx
        · exact h
      exact List.mem_cons_of_mem _ (ih h2)

theorem addEntityToList_length_le (cfg : ContextConfig) (l : List EntityRef)
    (e : EntityRef) (h : l.length ≤ cfg.maxEntitiesPerType) :
    (addEntityToList cfg l e).length ≤ cfg.maxEntitiesPerType := by
  rw [addEntityToList]
  by_cases hdup : l.any (fun x => decide (x.id = e.id)) = true
  · rw [if_pos hdup, replaceFirstById_length]; exact h
  · rw [if_neg hdup]
    by_cases hc : cfg.maxEntitiesPerType < (l ++ [e]).length
    · rw [if_pos hc]
      have := List.length_tail (l ++ [e])
      simp only [List.length_append, List.length_cons, List.length_nil] at this hc ⊢
      omega
    · rw [if_neg hc]
      simp only [List.length_append, List.length_cons, List.length_nil] at hc ⊢
      omega

theorem addEntityToList_dup (cfg : ContextConfig) (l : List EntityRef)
    (e : EntityRef) (h : l.any (fun x => decide (x.id = e.id)) = true) :
    addEntityToList cfg l e = replaceFirstById l e := by
  rw [addEntityToList, if_pos h]

theorem addEntity_foldl_list (cfg : ContextConfig) (id : String)
    (k : EntityType) (ops : List (EntityRef × Nat))
    (hk : ∀ p ∈ ops, p.1.type = k) :
    ∀ (db : ContextDb) (c0 : ConversationContext), getById db id = some c0 →
      ∃ c, getById (ops.foldl (fun d p => addEntity cfg d id p.1 p.2) db) id = some c ∧
        c.entities.getList (listKey k) =
          ops.foldl (fun l p => addEntityToList cfg l p.1)
            (c0.entities.getList (listKey k)) := by
  induction ops with
  | nil => intro db c0 h0; exact ⟨c0, h0, rfl⟩
  | cons p rest ih =>
    intro db c0 h0
    have hp : p.1.type = k := hk p (List.mem_cons_self _ _)
    have h1 := getById_addEntity cfg db id p.1 p.2 c0 h0
    have hk2 : ∀ q ∈ rest, q.1.type = k := fun q hq =>
      hk q (List.mem_cons_of_mem _ hq)
    obtain ⟨c, hc, hlist⟩ := ih hk2 (addEntity cfg db id p.1 p.2) _ h1
    refine ⟨c, by simpa using hc, ?_⟩
    rw [hlist]
    simp only [hp, getList_setList, List.foldl_cons]

theorem foldl_addEntityToList_le (cfg : ContextConfig)
    (ops : List (EntityRef × Nat)) :
    ∀ l0 : List EntityRef, l0.length ≤ cfg.maxEntitiesPerType →
      (ops.foldl (fun l p => addEntityToList cfg l p.1) l0).length ≤
        cfg.maxEntitiesPerType := by
  induction ops with
  | nil => intro l0 h; simpa using h
  | cons p rest ih =>
    intro l0 h
    rw [List.foldl_cons]
    exact ih _ (addEntityToList_length_le cfg l0 p.1 h)

/-- C2: entity-list invariants of addEntity, for any single kind. (a) For
any sequence of addEntity calls of one kind starting from a list within
the cap (a fresh context starts empty), the stored list for that kind
never exceeds the configured per-kind maximum — every prefix is itself
such a sequence. (b) A call whose entity id already occurs in the list
replaces the first such element in place: the length and the stored id
sequence are unchanged and the new entity is present. (c) Concretely, 6
sequential addEntity calls of distinct contact entities under the default
cap of 5 leave the list [e2, e3, e4, e5, e6] — entity 1 evicted. -/
theorem addEntity_cap_dedup (cfg : ContextConfig) :
    (∀ (db : ContextDb) (id : String) (c0 : ConversationContext)
       (k : EntityType) (ops : List (EntityRef × Nat)),
       getById db id = some c0 →
       (c0.entities.getList (listKey k)).length ≤ cfg.maxEntitiesPerType →
       (∀ p ∈ ops, p.1.type = k) →
       ∃ c, getById (ops.foldl (fun d p => addEntity cfg d id p.1 p.2) db) id =
           some c ∧
         (c.entities.getList (listKey k)).length ≤ cfg.maxEntitiesPerType) ∧
    (∀ (db : ContextDb) (id : String) (c0 : ConversationContext)
       (e : EntityRef) (now : Nat),
       getById db id = some c0 →
       ((c0.entities.getList (listKey e.type)).any
         (fun x => decide (x.id = e.id))) = true →
       ∃ c, getById (addEntity cfg db id e now) id = some c ∧
         (c.entities.getList (listKey e.type)).length =
           (c0.entities.getList (listKey e.type)).length ∧
         (c.entities.getList (listKey e.type)).map (fun x => x.id) =
           (c0.entities.getList (listKey e.type)).map (fun x => x.id) ∧
         e ∈ c.entities.getList (listKey e.type)) ∧
    ((getById (([1, 2, 3, 4, 5, 6].map cEnt).foldl
        (fun d e => addEntity cCfg d "ctx1" e 7) [cCtx]) "ctx1").map
        (fun c => c.entities.contacts) = some ([2, 3, 4, 5, 6].map cEnt)) := by
  refine ⟨?_, ?_, by decide⟩
  · intro db id c0 k ops h0 hstart hk
    obtain ⟨c, hc, hlist⟩ := addEntity_foldl_list cfg id k ops hk db c0 h0
    refine ⟨c, hc, ?_⟩
    rw [hlist]
    exact foldl_addEntityToList_le cfg ops _ hstart
  · intro db id c0 e now h0 hdup
    have h1 := getById_addEntity cfg db id e now c0 h0
    refine ⟨_, h1, ?_, ?_, ?_⟩
    · simp only [getList_setList, addEntityToList_dup cfg _ _ hdup,
        replaceFirstById_length]
    · simp only [getList_setList, addEntityToList_dup cfg _ _ hdup,
        replaceFirstById_map_id]
    · simp only [getList_setList, addEntityToList_dup cfg _ _ hdup]
      exact replaceFirstById_mem _ _ hdup

/-- Witness for C2: the fold part instantiated on a concrete 3-entity run
and the dedup part on a context holding a contact with the same id. -/
theorem addEntity_cap_dedup_wit :
    (∃ c, getById ([(cEnt 1, 1), (cEnt 2, 2), (cEnt 3, 3)].foldl
        (fun d p => addEntity cCfg d "ctx1" p.1 p.2) [cCtx]) "ctx1" = some c ∧
      (c.entities.getList (listKey .contact)).length ≤ cCfg.maxEntitiesPerType) ∧
    (∃ c, getById (addEntity cCfg [cCtxC] "ctx1"
        { cMaria with name := "Maria L" } 9) "ctx1" = some c ∧
      (c.entities.getList (listKey EntityType.contact)).length =
        (cCtxC.entities.getList (listKey EntityType.contact)).length ∧
      (c.entities.getList (listKey EntityType.contact)).map (fun x => x.id) =
        (cCtxC.entities.getList (listKey EntityType.contact)).map (fun x => x.id) ∧
      { cMaria with name := "Maria L" } ∈
        c.entities.getList (listKey EntityType.contact)) :=
  ⟨(addEntity_cap_dedup cCfg).1 [cCtx] "ctx1" cCtx .contact
      [(cEnt 1, 1), (cEnt 2, 2), (cEnt 3, 3)] (by decide) (by decide)
      (by decide),
   (addEntity_cap_dedup cCfg).2.1 [cCtxC] "ctx1" cCtxC
      { cMaria with name := "Maria L" } 9 (by decide) (by decide)⟩

theorem length_filter_partition (db : ContextDb) (p : ConversationContext → Bool) :
    (db.filter p).length + (db.filter (fun c => !(p c))).length = db.length := by
  induction db with
  | nil => rfl
  | cons d rest ih =>
    by_cases hd : p d = true
    · simp [List.filter_cons, hd, ← ih]; omega
    · have hd2 : p d = false := by
        cases h : p d
        · rfl
        · exact absurd h hd
      simp [List.filter_cons, hd2, ← ih]; omega

/-- C3: cleanupExpired deletes exactly the rows with no thread identifier
whose expiry is in the past and returns the number of rows it deleted;
and a row created with a (non-empty) thread identifier survives every
later sweep, whatever its expiry. -/
theorem cleanupExpired_spec (db : ContextDb) (now : Nat) (cfg : ContextConfig)
    (db0 : ContextDb) (channelId : String) (t : String) (ht : t ≠ "")
    (userId : Option String) (freshId : String) (created sweep : Nat) :
    (∀ c ∈ db, (c ∈ (cleanupExpired db now).2 ↔
       ¬(c.expiresAt < now ∧ c.slackThreadTs = none))) ∧
    (∀ c ∈ (cleanupExpired db now).2, c ∈ db) ∧
    (cleanupExpired db now).1 + (cleanupExpired db now).2.length = db.length ∧
    (∃ r, (create cfg db0 channelId (some t) userId freshId created).2 =
        db0 ++ [r] ∧ r.slackThreadTs = some t ∧
      r ∈ (cleanupExpired
        (create cfg db0 channelId (some t) userId freshId created).2 sweep).2) := by
  refine ⟨?_, ?_, ?_, ?_⟩
  · intro c hc
    constructor
    · intro hkept hbad
      have := (List.mem_filter.mp hkept).2
      rw [Bool.not_eq_true', decide_eq_false_iff_not] at this
      exact this hbad
    · intro hgood
      exact List.mem_filter.mpr ⟨hc, by
        rw [Bool.not_eq_true', decide_eq_false_iff_not]; exact hgood⟩
  · intro c hc
    exact (List.mem_filter.mp hc).1
  · exact length_filter_partition db _
  · refine ⟨_, rfl, ?_, ?_⟩
    · simp [normThread, ht]
    · refine List.mem_filter.mpr ⟨List.mem_append_right _ (by simp), ?_⟩
      rw [Bool.not_eq_true', decide_eq_false_iff_not]
      intro hbad
      have : normThread (some t) = none := hbad.2
      simp [normThread, ht] at this

/-- Witness for C3 on a two-row table: one expired non-threaded row is
deleted, the threaded row survives, the returned count is 1; and the
created-threaded-row conjunct at concrete arguments. -/
theorem cleanupExpired_spec_wit :
    ({ cCtx with slackThreadTs := none, id := "ctx2" } ∈
        [cCtx, { cCtx with slackThreadTs := none, id := "ctx2" }] →
      ({ cCtx with slackThreadTs := none, id := "ctx2" } ∈
          (cleanupExpired [cCtx,
            { cCtx with slackThreadTs := none, id := "ctx2" }] 1800001).2 ↔
        ¬(({ cCtx with slackThreadTs := none, id := "ctx2" } :
            ConversationContext).expiresAt < 1800001 ∧
          ({ cCtx with slackThreadTs := none, id := "ctx2" } :
            ConversationContext).slackThreadTs = none))) ∧
    (∃ r, (create cCfg [] "C9" (some "t9") none "id9" 0).2 = [] ++ [r] ∧
      r.slackThreadTs = some "t9" ∧
      r ∈ (cleanupExpired (create cCfg [] "C9" (some "t9") none "id9" 0).2
        999999999).2) :=
  ⟨((cleanupExpired_spec [cCtx, { cCtx with slackThreadTs := none, id := "ctx2" }]
      1800001 cCfg [] "C9" "t9" (by decide) none "id9" 0 999999999).1 _),
   ((cleanupExpired_spec [cCtx, { cCtx with slackThreadTs := none, id := "ctx2" }]
      1800001 cCfg [] "C9" "t9" (by decide) none "id9" 0 999999999).2.2.2)⟩

theorem truthyStr_false_normThread {t : Option String}
    (h : truthyStr t = false) : normThread t = none := by
  cases t with
  | none => rfl
  | some s =>
    rw [truthyStr] at h
    simp only [Bool.not_eq_false', decide_eq_true_eq] at h
    simp [normThread, h]

theorem countPair_map_keep (db : ContextDb) (ch : String) (t : Option String)
    (g : ConversationContext → ConversationContext)
    (hg : ∀ r, (g r).slackChannelId = r.slackChannelId ∧
      (g r).slackThreadTs = r.slackThreadTs) :
    countPair (db.map g) ch t = countPair db ch t := by
  induction db with
  | nil => rfl
  | cons d rest ih =>
    rw [countPair, List.map_cons, List.filter_cons]
    rw [countPair, List.filter_cons]
    have hpred : (decide ((g d).slackChannelId = ch ∧ (g d).slackThreadTs = t)) =
        (decide (d.slackChannelId = ch ∧ d.slackThreadTs = t)) := by
      rw [(hg d).1, (hg d).2]
    rw [hpred]
    by_cases hd : (d.slackChannelId = ch ∧ d.slackThreadTs = t)
    · rw [if_pos (by simpa using hd), if_pos (by simpa using hd)]
      simpa [countPair] using ih
    · rw [if_neg (by simpa using hd), if_neg (by simpa using hd)]
      simpa [countPair] using ih

theorem countPair_append_one (db : ContextDb) (ch : String) (t : Option String)
    (r : ConversationContext) :
    countPair (db ++ [r]) ch t = countPair db ch t +
      (if r.slackChannelId = ch ∧ r.slackThreadTs = t then 1 else 0) := by
  rw [countPair, countPair, List.filter_append, List.length_append]
  by_cases hr : (r.slackChannelId = ch ∧ r.slackThreadTs = t)
  · rw [if_pos hr]
    simp [List.filter_cons, hr]
  · rw [if_neg hr]
    simp [List.filter_cons, hr]

theorem find_none_countPair (db : ContextDb) (ch : String) (t : Option String)
    (h : find db ch t = none) : countPair db ch (normThread t) = 0 := by
  rw [countPair, List.length_eq_zero]
  rw [List.filter_eq_nil_iff]
  intro c hc
  have := List.find?_eq_none.mp h c hc
  simpa using this

theorem touchActivity_keeps (cfg : ContextConfig) (id : String) (now : Nat)
    (isThreaded : Bool) (r : ConversationContext) :
    ((if r.id = id then
        if isThreaded then { r with lastActivityAt := now }
        else { r with lastActivityAt := now,
                      expiresAt := now + cfg.expirationMinutes * 60 * 1000 }
      else r).slackChannelId = r.slackChannelId ∧
     (if r.id = id then
        if isThreaded then { r with lastActivityAt := now }
        else { r with lastActivityAt := now,
                      expiresAt := now + cfg.expirationMinutes * 60 * 1000 }
      else r).slackThreadTs = r.slackThreadTs) := by
  by_cases hid : r.id = id
  · rw [if_pos hid]
    cases isThreaded <;> simp
  · rw [if_neg hid]
    exact ⟨rfl, rfl⟩

theorem create_snd (cfg : ContextConfig) (db : ContextDb) (channelId : String)
    (threadTs : Option String) (userId : Option String) (freshId : String)
    (now : Nat) :
    (create cfg db channelId threadTs userId freshId now).2 =
      db ++ [{ (create cfg db channelId threadTs userId freshId now).1 with
               slackThreadTs := normThread threadTs }] := rfl

/-- C4 counterexample: the at-most-one-row-per-pair invariant fails on a
state reachable with two getOrCreate calls at the default configuration —
a non-threaded context is created at time 0, and a second lookup on the
same channel after its expiry creates a second row for the same
(channel, no-thread) pair instead of replacing the first. -/
theorem getOrCreate_duplicate_rows_cex :
    countPair (getOrCreate cCfg
      (getOrCreate cCfg [] "C1" none none "id1" 0).2
      "C1" none none "id2" 1800001).2 "C1" none = 2 := by decide

/-- C4 (amended): getOrCreate behavior.  (1) For threaded pairs the
at-most-one-row invariant is preserved: a threaded row is only created
when the pair has no row at all.  (2) When a row for the pair exists and
is threaded or unexpired, getOrCreate returns it and only touches
activity — no row is created or removed.  (3) When no row exists, or the
existing non-threaded row is expired, getOrCreate appends a fresh row
with a fresh expiry — leaving any expired row in place, which is what
breaks the claimed invariant for non-threaded pairs. -/
theorem getOrCreate_behavior (cfg : ContextConfig) (db : ContextDb)
    (channelId : String) (threadTs : Option String) (userId : Option String)
    (freshId : String) (now : Nat) :
    (∀ ch0 t0, t0 ≠ "" → countPair db ch0 (some t0) ≤ 1 →
      countPair (getOrCreate cfg db channelId threadTs userId freshId now).2
        ch0 (some t0) ≤ 1) ∧
    (∀ c, find db channelId threadTs = some c →
      (truthyStr threadTs = true ∨ isExpired c now = false) →
      (getOrCreate cfg db channelId threadTs userId freshId now).1 = c ∧
      (getOrCreate cfg db channelId threadTs userId freshId now).2 =
        touchActivity cfg db c.id (truthyStr threadTs) now ∧
      (getOrCreate cfg db channelId threadTs userId freshId now).2.length =
        db.length) ∧
    ((find db channelId threadTs = none ∨
      (truthyStr threadTs = false ∧
        ∃ c, find db channelId threadTs = some c ∧ isExpired c now = true)) →
      ∃ r, (getOrCreate cfg db channelId threadTs userId freshId now).2 =
          db ++ [r] ∧
        r.id = freshId ∧ r.slackChannelId = channelId ∧
        r.slackThreadTs = normThread threadTs ∧ r.history = [] ∧
        r.activeAgent = none ∧
        r.expiresAt = now + cfg.expirationMinutes * 60 * 1000 ∧
        (getOrCreate cfg db channelId threadTs userId freshId now).1 =
          { r with slackThreadTs := threadTs }) := by
  refine ⟨?_, ?_, ?_⟩
  · intro ch0 t0 ht0 hle
    cases hfind : find db channelId threadTs with
    | none =>
      have hoc : (getOrCreate cfg db channelId threadTs userId freshId now).2 =
          (create cfg db channelId threadTs userId freshId now).2 := by
        simp only [getOrCreate, hfind]
      rw [hoc, create_snd, countPair_append_one]
      by_cases hmatch : (channelId = ch0 ∧ normThread threadTs = some t0)
      · have h0 : countPair db channelId (normThread threadTs) = 0 :=
          find_none_countPair db channelId threadTs hfind
        rw [← hmatch.1, ← hmatch.2]
        rw [h0]
        split <;> omega
      · rw [if_neg (by simpa using hmatch)]
        omega
    | some ex =>
      by_cases hcond : (truthyStr threadTs || !(isExpired ex now)) = true
      · have hoc : (getOrCreate cfg db channelId threadTs userId freshId now).2 =
            touchActivity cfg db ex.id (truthyStr threadTs) now := by
          simp only [getOrCreate, hfind, if_pos hcond]
        rw [hoc]
        rw [touchActivity]
        rw [countPair_map_keep db ch0 (some t0) _
          (touchActivity_keeps cfg ex.id now (truthyStr threadTs))]
        exact hle
      · have hfalse : truthyStr threadTs = false := by
          rcases Bool.or_eq_false_iff.mp (Bool.eq_false_iff.mpr hcond) with ⟨h1, -⟩
          exact h1
        have hoc : (getOrCreate cfg db channelId threadTs userId freshId now).2 =
            (create cfg db channelId threadTs userId freshId now).2 := by
          simp only [getOrCreate, hfind, if_neg hcond]
        rw [hoc, create_snd, countPair_append_one]
        rw [if_neg (by
          rw [truthyStr_false_normThread hfalse]
          rintro ⟨-, h⟩
          exact Option.noConfusion h)]
        omega
  · intro c hfind hcond
    have hcondb : (truthyStr threadTs || !(isExpired c now)) = true := by
      rcases hcond with h | h <;> simp [h]
    have hoc : getOrCreate cfg db channelId threadTs userId freshId now =
        (c, touchActivity cfg db c.id (truthyStr threadTs) now) := by
      simp only [getOrCreate, hfind, if_pos hcondb]
    rw [hoc]
    exact ⟨rfl, rfl, by simp [touchActivity]⟩
  · intro hcase
    have hgoal : getOrCreate cfg db channelId threadTs userId freshId now =
        create cfg db channelId threadTs userId freshId now := by
      rcases hcase with hnone | ⟨hfalse, c, hfind, hexp⟩
      · simp only [getOrCreate, hnone]
      · simp only [getOrCreate, hfind, if_neg (by simp [hfalse, hexp] : ¬(truthyStr threadTs || !(isExpired c now)) = true)]
    rw [hgoal, create_snd]
    exact ⟨_, rfl, rfl, rfl, rfl, rfl, rfl, rfl, rfl⟩

/-- Witness for C4's amended behavior theorem: the threaded-uniqueness
preservation and the found-live case at a concrete threaded store, and
the creation case on an empty store. -/
theorem getOrCreate_behavior_wit :
    (countPair (getOrCreate cCfg [cCtx] "C1" (some "t1") none "idW" 5).2
      "C1" (some "t1") ≤ 1) ∧
    ((getOrCreate cCfg [cCtx] "C1" (some "t1") none "idW" 5).1 = cCtx) ∧
    (∃ r, (getOrCreate cCfg [] "C2" none none "idW" 5).2 = [] ++ [r] ∧
      r.id = "idW" ∧ r.slackChannelId = "C2" ∧ r.slackThreadTs = normThread none ∧
      r.history = [] ∧ r.activeAgent = none ∧
      r.expiresAt = 5 + cCfg.expirationMinutes * 60 * 1000 ∧
      (getOrCreate cCfg [] "C2" none none "idW" 5).1 =
        { r with slackThreadTs := none }) :=
  ⟨(getOrCreate_behavior cCfg [cCtx] "C1" (some "t1") none "idW" 5).1
      "C1" "t1" (by decide) (by decide),
   ((getOrCreate_behavior cCfg [cCtx] "C1" (some "t1") none "idW" 5).2.1
      cCtx (by decide) (Or.inl (by decide))).1,
   (getOrCreate_behavior cCfg [] "C2" none none "idW" 5).2.2
      (Or.inl (by decide))⟩

theorem getById_append_fresh (db : ContextDb) (r : ConversationContext)
    (fid : String) (hfresh : ∀ c ∈ db, c.id ≠ fid) (hr : r.id = fid) :
    getById (db ++ [r]) fid = some r := by
  induction db with
  | nil => simp [getById, List.find?, hr]
  | cons d rest ih =>
    have hd : ¬(d.id = fid) := hfresh d (List.mem_cons_self _ _)
    rw [List.cons_append, getById, List.find?_cons_of_neg _ (by simpa using hd)]
    exact ih (fun c hc => hfresh c (List.mem_cons_of_mem _ hc))

theorem getById_of_mem_nodup (db : ContextDb) (c : ConversationContext)
    (hnodup : (db.map (fun x => x.id)).Nodup) (hmem : c ∈ db) :
    getById db c.id = some c := by
  induction db with
  | nil => simp at hmem
  | cons d rest ih =>
    rcases List.mem_cons.mp hmem with rfl | hmem2
    · rw [getById, List.find?_cons_of_pos _ (by simp)]
    · have hd : ¬(d.id = c.id) := by
        intro heq
        have : c.id ∈ rest.map (fun x => x.id) :=
          List.mem_map_of_mem _ hmem2
        rw [List.map_cons, List.nodup_cons] at hnodup
        exact hnodup.1 (heq ▸ this)
      rw [getById, List.find?_cons_of_neg _ (by simpa using hd)]
      exact ih (by rw [List.map_cons, List.nodup_cons] at hnodup; exact hnodup.2)
        hmem2

/-- C9 counterexample: on an empty store, the public getContext neither
returns null nor leaves the store unchanged — it creates a row and
returns it, because it delegates to getOrCreate. -/
theorem getContext_creates_cex :
    (orchGetContext cCfg [] "C1" none "id1" 0).1 ≠ none ∧
    (orchGetContext cCfg [] "C1" none "id1" 0).2.length = 1 := by decide

/-- C9 (amended): getContext(channelId, threadId?) is not read-only.
When no row exists for the pair it creates a fresh row (fresh expiry,
empty history) and returns it; when the pair's row exists and is threaded
or unexpired it returns that row with its activity timestamp refreshed —
a write — and creates nothing. -/
theorem getContext_behavior (cfg : ContextConfig) (db : ContextDb)
    (channelId : String) (threadTs : Option String) (freshId : String)
    (now : Nat) :
    (find db channelId threadTs = none → (∀ c ∈ db, c.id ≠ freshId) →
      ∃ r, orchGetContext cfg db channelId threadTs freshId now =
          (some r, db ++ [r]) ∧
        r.id = freshId ∧ r.slackChannelId = channelId ∧
        r.slackThreadTs = normThread threadTs ∧ r.history = [] ∧
        r.expiresAt = now + cfg.expirationMinutes * 60 * 1000) ∧
    (∀ c, find db channelId threadTs = some c →
      (truthyStr threadTs = true ∨ isExpired c now = false) →
      (db.map (fun x => x.id)).Nodup →
      ∃ r, orchGetContext cfg db channelId threadTs freshId now =
          (some r, touchActivity cfg db c.id (truthyStr threadTs) now) ∧
        r.id = c.id ∧ r.history = c.history ∧ r.lastActivityAt = now ∧
        (orchGetContext cfg db channelId threadTs freshId now).2.length =
          db.length) := by
  constructor
  · intro hfind hfresh
    have hoc : getOrCreate cfg db channelId threadTs none freshId now =
        create cfg db channelId threadTs none freshId now := by
      simp only [getOrCreate, hfind]
    refine ⟨{ (create cfg db channelId threadTs none freshId now).1 with
        slackThreadTs := normThread threadTs }, ?_, rfl, rfl, rfl, rfl, rfl⟩
    simp only [orchGetContext, hoc, create_snd]
    have hbyid := getById_append_fresh db
      { (create cfg db channelId threadTs none freshId now).1 with
        slackThreadTs := normThread threadTs } freshId hfresh rfl
    rw [Prod.mk.injEq]
    exact ⟨hbyid, rfl⟩
  · intro c hfind hcond hnodup
    have hcondb : (truthyStr threadTs || !(isExpired c now)) = true := by
      rcases hcond with h | h <;> simp [h]
    have hoc : getOrCreate cfg db channelId threadTs none freshId now =
        (c, touchActivity cfg db c.id (truthyStr threadTs) now) := by
      simp only [getOrCreate, hfind, if_pos hcondb]
    have hmem : c ∈ db := List.mem_of_find?_eq_some hfind
    have hbyid : getById db c.id = some c := getById_of_mem_nodup db c hnodup hmem
    cases hthr : truthyStr threadTs with
    | true =>
      rw [hthr] at hoc
      have htouch : getById (touchActivity cfg db c.id true now) c.id =
          some { c with lastActivityAt := now } :=
        getById_map_keep (fun r => { r with lastActivityAt := now })
          (fun r => rfl) db c.id c hbyid
      refine ⟨{ c with lastActivityAt := now }, ?_, rfl, rfl, rfl, ?_⟩
      · simp only [orchGetContext, hoc]
        rw [Prod.mk.injEq]
        exact ⟨htouch, rfl⟩
      · simp only [orchGetContext, hoc, touchActivity, List.length_map]
    | false =>
      rw [hthr] at hoc
      have htouch : getById (touchActivity cfg db c.id false now) c.id =
          some { c with lastActivityAt := now,
                        expiresAt := now + cfg.expirationMinutes * 60 * 1000 } :=
        getById_map_keep (fun r => { r with lastActivityAt := now,
                                            expiresAt := now + cfg.expirationMinutes * 60 * 1000 })
          (fun r => rfl) db c.id c hbyid
      refine ⟨{ c with lastActivityAt := now,
                       expiresAt := now + cfg.expirationMinutes * 60 * 1000 },
        ?_, rfl, rfl, rfl, ?_⟩
      · simp only [orchGetContext, hoc]
        rw [Prod.mk.injEq]
        exact ⟨htouch, rfl⟩
      · simp only [orchGetContext, hoc, touchActivity, List.length_map]

/-- Witness for C9's amended theorem: concrete creation on an empty store
and a concrete touched lookup on a one-row threaded store. -/
theorem getContext_behavior_wit :
    (∃ r, orchGetContext cCfg [] "C3" (some "t3") "idw9" 4 =
        (some r, [] ++ [r]) ∧
      r.id = "idw9" ∧ r.slackChannelId = "C3" ∧
      r.slackThreadTs = normThread (some "t3") ∧ r.history = [] ∧
      r.expiresAt = 4 + cCfg.expirationMinutes * 60 * 1000) ∧
    (∃ r, orchGetContext cCfg [cCtx] "C1" (some "t1") "idw9" 4 =
        (some r, touchActivity cCfg [cCtx] cCtx.id (truthyStr (some "t1")) 4) ∧
      r.id = cCtx.id ∧ r.history = cCtx.history ∧ r.lastActivityAt = 4 ∧
      (orchGetContext cCfg [cCtx] "C1" (some "t1") "idw9" 4).2.length =
        [cCtx].length) :=
  ⟨(getContext_behavior cCfg [] "C3" (some "t3") "idw9" 4).1 (by decide)
      (by intro c hc; simp at hc),
   (getContext_behavior cCfg [cCtx] "C1" (some "t1") "idw9" 4).2 cCtx
      (by decide) (Or.inl (by decide)) (by decide)⟩

/-- C5 counterexample: a short message with no continuation marker.  The
quick pass does not match "zzz", the context has an active capability and
the message is 3 characters long — under the claim, being short should
suffice for the 0.85 continuation result with no generative call — yet
the code falls through to the generative path (flag true) and returns its
fallback, because isFollowUp also requires a continuation marker. -/
theorem followUp_requires_marker_cex :
    quickClassify "zzz" = none ∧
    cCtxA.activeAgent = some AgentType.hubspot ∧
    "zzz".length < 50 ∧
    classifyWithContext pNone "zzz" cCtxA (Except.error ()) =
      (classifyFallback, true) ∧
    classifyFallback.agent = AgentType.general ∧
    ¬ classifyFallback.confidence = 17/20 := by
  refine ⟨by decide, rfl, by decide, rfl, rfl, ?_⟩
  rw [classifyFallback]
  norm_num

/-- C5 (amended): when the quick pattern pass does not match, the context
has an active capability, and the message is short AND contains one of
the fixed continuation markers, the classification is the active
capability at confidence exactly 0.85 and the generative model is not
called (flag false). -/
theorem followUp_bias (parse : String → Option JVal) (message : String)
    (context : ConversationContext) (llmOutcome : Except Unit String)
    (a : AgentType) (hquick : quickClassify message = none)
    (hactive : context.activeAgent = some a) (hshort : message.length < 50)
    (hmark : ∃ ind ∈ followUpIndicators,
      jsIncludes (jsTrim (jsToLower message)) ind = true) :
    classifyWithContext parse message context llmOutcome =
      ({ agent := a, intent := "Follow-up to previous message",
         confidence := 17/20, entities := [] }, false) := by
  have hfu : isFollowUp message = true := by
    simp only [isFollowUp]
    rw [if_pos hshort, List.any_eq_true]
    obtain ⟨ind, hin, hinc⟩ := hmark
    exact ⟨ind, hin, hinc⟩
  simp only [classifyWithContext, hquick, hactive, hfu, if_true]

/-- Witness for C5's amended theorem: "yes" with an active hubspot agent
classifies as a hubspot continuation at 0.85 without a generative call. -/
theorem followUp_bias_wit :
    classifyWithContext pNone "yes" cCtxA (Except.error ()) =
      ({ agent := .hubspot, intent := "Follow-up to previous message",
         confidence := 17/20, entities := [] }, false) :=
  followUp_bias pNone "yes" cCtxA (Except.error ()) .hubspot (by decide) rfl
    (by decide) ⟨"yes", by decide, by decide⟩

/-- C6: classify returns the fixed fallback — generic capability,
confidence 0.3 (below 0.5), no entities — when the generative call throws
(the error is consumed, not re-raised: the Except.error case maps to a
value), when the response has no brace-delimited JSON object, and also
when JSON.parse throws on the extracted slice. -/
theorem classify_failure_fallback (parse : String → Option JVal)
    (s1 s2 j : String) (h1 : braceMatch s1 = none)
    (h2 : braceMatch s2 = some j) (h3 : parse j = none) :
    classifyResult parse (Except.error ()) = classifyFallback ∧
    classifyResult parse (Except.ok s1) = classifyFallback ∧
    classifyResult parse (Except.ok s2) = classifyFallback ∧
    classifyFallback.agent = AgentType.general ∧
    classifyFallback.confidence < 1/2 ∧
    classifyFallback.entities = [] := by
  refine ⟨rfl, ?_, ?_, rfl, ?_, rfl⟩
  · simp only [classifyResult, h1]
  · simp only [classifyResult, h2, h3]
  · rw [classifyFallback]
    norm_num

/-- Witness for C6: a throwing generative call and a markerless response
both yield the fallback. -/
theorem classify_failure_fallback_wit :
    classifyResult pNone (Except.error ()) = classifyFallback ∧
    classifyResult pNone (Except.ok "no json here") = classifyFallback :=
  ⟨(classify_failure_fallback pNone "no json here" "{}" "{}" (by decide)
      (by decide) rfl).1,
   (classify_failure_fallback pNone "no json here" "{}" "{}" (by decide)
      (by decide) rfl).2.1⟩

/-- C7 counterexample: with a successfully parsed object whose entity
list holds {type: banana, value: x} and {type: contact, value: []}, the
result keeps the banana-kind entity although banana is not a recognized
kind, and keeps the second entity with an empty stringified value — the
filter only checks truthiness of the two fields. -/
theorem validateEntities_kind_unchecked_cex :
    (classifyResult (pConst cParsed) (Except.ok "{}")).entities =
      [{ type := "banana", value := "x" }, { type := "contact", value := "" }] ∧
    "banana" ∉ recognizedEntityKinds ∧
    ({ type := "contact", value := "" } : ExtractedEntity).value = "" := by
  exact ⟨by decide, by decide, rfl⟩

/-- C7 (amended): when classify parses a JSON object out of the response,
the capability is the parsed agent string when it is one of
content/hubspot/general and the generic capability otherwise (also when
the field is absent); and the entity list of the result consists of
exactly the elements of the parsed entity array that are object-like with
truthy type and value fields — the kind is not validated against the
recognized set and the stringified value may be empty. -/
theorem classify_parse_validation (parse : String → Option JVal) (s j : String)
    (v : JVal) (h1 : braceMatch s = some j) (h2 : parse j = some v) :
    (∀ a, getField v "agent" = some (.jstr a) →
      (classifyResult parse (Except.ok s)).agent =
        (if a = "content" then AgentType.content
         else if a = "hubspot" then AgentType.hubspot else AgentType.general)) ∧
    (getField v "agent" = none →
      (classifyResult parse (Except.ok s)).agent = AgentType.general) ∧
    (∀ e ∈ (classifyResult parse (Except.ok s)).entities,
      ∃ jv ∈ entArray (getField v "entities"), entityKept jv = true ∧
        e = mkExtracted jv) ∧
    (∀ jv ∈ entArray (getField v "entities"), entityKept jv = true →
      mkExtracted jv ∈ (classifyResult parse (Except.ok s)).entities) := by
  have hres : classifyResult parse (Except.ok s) =
      { agent := validateAgentJ (getField v "agent")
        intent := intentOf (getField v "intent")
        confidence := confidenceOf (getField v "confidence")
        entities := validateEntities (getField v "entities") } := by
    simp only [classifyResult, h1, h2]
  refine ⟨?_, ?_, ?_, ?_⟩
  · intro a ha
    rw [hres]
    simp only [validateAgentJ, ha]
    by_cases hc : a = "content"
    · simp [hc]
    · by_cases hh : a = "hubspot"
      · simp [hc, hh]
      · by_cases hg : a = "general"
        · simp [hc, hh, hg]
        · simp [hc, hh, hg]
  · intro ha
    rw [hres]
    simp only [validateAgentJ, ha]
  · intro e he
    rw [hres] at he
    simp only [validateEntities] at he
    obtain ⟨jv, hjv, rfl⟩ := List.mem_map.mp he
    have hf := List.mem_filter.mp hjv
    exact ⟨jv, hf.1, hf.2, rfl⟩
  · intro jv hjv hkeep
    rw [hres]
    simp only [validateEntities]
    exact List.mem_map_of_mem _ (List.mem_filter.mpr ⟨hjv, hkeep⟩)

/-- Witness for C7's amended theorem at a concrete parsed response: the
agent string hubspot is kept, and the well-formed contact entity appears
in the result. -/
theorem classify_parse_validation_wit :
    ((classifyResult (pConst cParsedOk) (Except.ok "x{}")).agent =
      (if "hubspot" = "content" then AgentType.content
       else if "hubspot" = "hubspot" then AgentType.hubspot
       else AgentType.general)) ∧
    mkExtracted (.jobj [("type", .jstr "contact"), ("value", .jstr "Maria")]) ∈
      (classifyResult (pConst cParsedOk) (Except.ok "x{}")).entities :=
  ⟨(classify_parse_validation (pConst cParsedOk) "x{}" "{}" cParsedOk
      (by decide) rfl).1 "hubspot" rfl,
   (classify_parse_validation (pConst cParsedOk) "x{}" "{}" cParsedOk
      (by decide) rfl).2.2.2
      (.jobj [("type", .jstr "contact"), ("value", .jstr "Maria")])
      (List.mem_singleton_self _) rfl⟩

theorem getRecentEntity_contact (db : ContextDb) (ctxId : String)
    (c : ConversationContext) (h : getById db ctxId = some c) :
    getRecentEntity db ctxId .contact = c.entities.contacts.getLast? := by
  simp only [getRecentEntity, h, recentKey]
  rfl

theorem getRecentEntity_deal (db : ContextDb) (ctxId : String)
    (c : ConversationContext) (h : getById db ctxId = some c) :
    getRecentEntity db ctxId .deal = c.entities.deals.getLast? := by
  simp only [getRecentEntity, h, recentKey]
  rfl

theorem getRecentEntity_company (db : ContextDb) (ctxId : String)
    (c : ConversationContext) (h : getById db ctxId = some c) :
    getRecentEntity db ctxId .company = c.entities.companies.getLast? := by
  simp only [getRecentEntity, h, recentKey]
  rfl

theorem resolvePronoun_singular (db : ContextDb) (ctxId : String)
    (c : ConversationContext) (h : getById db ctxId = some c) (p : String)
    (hlow : jsToLower p = p)
    (hng : ¬(p = "they" ∨ p = "them" ∨ p = "their"))
    (hmem : p ∈ (["he", "him", "his", "she", "her", "hers"] : List String)) :
    resolvePronoun db ctxId p = c.entities.contacts.getLast? := by
  simp only [resolvePronoun, h, hlow]
  rw [if_neg hng, if_pos hmem]
  exact getRecentEntity_contact db ctxId c h

theorem resolvePronoun_group (db : ContextDb) (ctxId : String)
    (c : ConversationContext) (h : getById db ctxId = some c) (p : String)
    (hlow : jsToLower p = p) (hg : p = "they" ∨ p = "them" ∨ p = "their") :
    resolvePronoun db ctxId p =
      (match c.entities.contacts.getLast? with
       | some contact => some contact
       | none =>
         match c.entities.companies.getLast? with
         | some company => some company
         | none => none) := by
  simp only [resolvePronoun, h, hlow]
  rw [if_pos hg, getRecentEntity_contact db ctxId c h,
    getRecentEntity_company db ctxId c h]

theorem resolveEntity_pronoun_case (db : ContextDb) (ctxId : String)
    (e : ExtractedEntity) (htr : truthyStr e.resolved_id = false)
    (hnine : jsToLower e.value ∈ (["he", "she", "him", "her", "they", "them",
      "it", "this", "that"] : List String)) :
    resolveEntity db ctxId e =
      (match resolvePronoun db ctxId (jsToLower e.value) with
       | some r => { e with resolved_id := some r.id, resolved_name := some r.name }
       | none => e) := by
  simp only [resolveEntity, htr]
  rw [if_neg (by simp), if_pos hnine]

theorem resolveEntity_other_case (db : ContextDb) (ctxId : String)
    (e : ExtractedEntity) (htr : truthyStr e.resolved_id = false)
    (hnine : jsToLower e.value ∉ (["he", "she", "him", "her", "they", "them",
      "it", "this", "that"] : List String)) :
    resolveEntity db ctxId e = e := by
  simp only [resolveEntity, htr]
  rw [if_neg (by simp), if_neg hnine]

/-- C8 counterexample: with a most-recent contact on record, an extracted
entity whose value is the singular personal pronoun "his" passes through
unresolved — the orchestrator's pronoun list omits his/hers/their — while
the claim says it maps to the most recent contact. -/
theorem resolveEntity_his_unresolved_cex :
    resolveEntities [cCtxC] (cClassOf "his") cCtxC =
      [{ type := "contact", value := "his" }] ∧
    ({ type := "contact", value := "his" } : ExtractedEntity).resolved_id =
      none ∧
    getRecentEntity [cCtxC] cCtxC.id .contact = some cMaria := by
  exact ⟨by decide, rfl, by decide⟩

/-- C8 (amended): entity resolution on an extracted entity.  An entity
with a truthy resolved identifier is untouched.  When the identifier is
absent: a value lowercasing to he/she/him/her resolves to the most recent
contact, or passes through when there is none; a value lowercasing to
they/them resolves to the most recent contact, else the most recent
company, else passes through; his/hers/their/its are not in the
orchestrator's pronoun list and always pass through; and resolution never
drops or adds entities.  (resolvePronoun itself also handles
his/hers/their/its, but resolveEntities never sends them to it.) -/
theorem resolveEntity_spec (db : ContextDb) (ctxId : String)
    (c : ConversationContext) (h : getById db ctxId = some c) :
    (∀ e : ExtractedEntity, truthyStr e.resolved_id = true →
      resolveEntity db ctxId e = e) ∧
    (∀ e : ExtractedEntity, truthyStr e.resolved_id = false →
      jsToLower e.value ∈ (["he", "she", "him", "her"] : List String) →
      ((∀ r, c.entities.contacts.getLast? = some r →
         resolveEntity db ctxId e =
           { e with resolved_id := some r.id, resolved_name := some r.name }) ∧
       (c.entities.contacts.getLast? = none → resolveEntity db ctxId e = e))) ∧
    (∀ e : ExtractedEntity, truthyStr e.resolved_id = false →
      jsToLower e.value ∈ (["they", "them"] : List String) →
      ((∀ r, c.entities.contacts.getLast? = some r →
         resolveEntity db ctxId e =
           { e with resolved_id := some r.id, resolved_name := some r.name }) ∧
       (c.entities.contacts.getLast? = none →
         ((∀ r, c.entities.companies.getLast? = some r →
            resolveEntity db ctxId e =
              { e with resolved_id := some r.id, resolved_name := some r.name }) ∧
          (c.entities.companies.getLast? = none →
            resolveEntity db ctxId e = e))))) ∧
    (∀ e : ExtractedEntity, truthyStr e.resolved_id = false →
      jsToLower e.value ∈ (["his", "hers", "their", "its"] : List String) →
      resolveEntity db ctxId e = e) ∧
    (∀ (cls : ClassificationResult) (ctx2 : ConversationContext),
      (resolveEntities db cls ctx2).length = cls.entities.length) := by
  refine ⟨?_, ?_, ?_, ?_, ?_⟩
  · intro e htr
    simp only [resolveEntity, htr, if_true]
  · intro e htr hmem
    simp only [List.mem_cons, List.mem_singleton, List.not_mem_nil,
      or_false] at hmem
    have hstep : resolveEntity db ctxId e =
        (match resolvePronoun db ctxId (jsToLower e.value) with
         | some r => { e with resolved_id := some r.id,
                              resolved_name := some r.name }
         | none => e) :=
      resolveEntity_pronoun_case db ctxId e htr
        (by rcases hmem with hv | hv | hv | hv <;> rw [hv] <;> decide)
    have hrp : resolvePronoun db ctxId (jsToLower e.value) =
        c.entities.contacts.getLast? := by
      rcases hmem with hv | hv | hv | hv <;> rw [hv] <;>
        exact resolvePronoun_singular db ctxId c h _ (by decide) (by decide)
          (by decide)
    rw [hstep, hrp]
    constructor
    · intro r hr
      rw [hr]
    · intro hnone
      rw [hnone]
  · intro e htr hmem
    simp only [List.mem_cons, List.mem_singleton, List.not_mem_nil,
      or_false] at hmem
    have hstep : resolveEntity db ctxId e =
        (match resolvePronoun db ctxId (jsToLower e.value) with
         | some r => { e with resolved_id := some r.id,
                              resolved_name := some r.name }
         | none => e) :=
      resolveEntity_pronoun_case db ctxId e htr
        (by rcases hmem with hv | hv <;> rw [hv] <;> decide)
    have hrp : resolvePronoun db ctxId (jsToLower e.value) =
        (match c.entities.contacts.getLast? with
         | some contact => some contact
         | none =>
           match c.entities.companies.getLast? with
           | some company => some company
           | none => none) := by
      rcases hmem with hv | hv <;> rw [hv] <;>
        exact resolvePronoun_group db ctxId c h _ (by decide) (by decide)
    rw [hstep, hrp]
    constructor
    · intro r hr
      rw [hr]
    · intro hnone
      rw [hnone]
      constructor
      · intro r hr
        rw [hr]
      · intro hnone2
        rw [hnone2]
  · intro e htr hmem
    simp only [List.mem_cons, List.mem_singleton, List.not_mem_nil,
      or_false] at hmem
    exact resolveEntity_other_case db ctxId e htr
      (by rcases hmem with hv | hv | hv | hv <;> rw [hv] <;> decide)
  · intro cls ctx2
    simp only [resolveEntities, List.length_map]

/-- Witness for C8's amended theorem: "her" resolves to the stored recent
contact, and "his" passes through, on a concrete context. -/
theorem resolveEntity_spec_wit :
    resolveEntity [cCtxC] "ctx1" { type := "contact", value := "her" } =
      { type := "contact", value := "her", resolved_id := some cMaria.id,
        resolved_name := some cMaria.name } ∧
    resolveEntity [cCtxC] "ctx1" { type := "contact", value := "his" } =
      { type := "contact", value := "his" } :=
  ⟨((resolveEntity_spec [cCtxC] "ctx1" cCtxC (by decide)).2.1
      { type := "contact", value := "her" } rfl (by decide)).1 cMaria
      (by decide),
   (resolveEntity_spec [cCtxC] "ctx1" cCtxC (by decide)).2.2.2.1
      { type := "contact", value := "his" } rfl (by decide)⟩

/-- C10: addEntity files a 'task' entity under the contacts list of the
context (the deals and companies lists are untouched), subject to the
contacts dedup/cap rule; and when its id is new and the contacts list is
under the cap, it is appended last, so getRecentEntity(ctx, 'contact')
returns it and resolving the personal pronouns "he"/"her" produces it. -/
theorem addEntity_task_to_contacts (cfg : ContextConfig) (db : ContextDb)
    (id : String) (c : ConversationContext) (e : EntityRef) (now : Nat)
    (h : getById db id = some c) (he : e.type = EntityType.task) :
    ∃ c2, getById (addEntity cfg db id e now) id = some c2 ∧
      c2.entities.contacts = addEntityToList cfg c.entities.contacts e ∧
      c2.entities.deals = c.entities.deals ∧
      c2.entities.companies = c.entities.companies ∧
      ((c.entities.contacts.any (fun x => decide (x.id = e.id)) = false ∧
        c.entities.contacts.length < cfg.maxEntitiesPerType) →
       (c2.entities.contacts = c.entities.contacts ++ [e] ∧
        getRecentEntity (addEntity cfg db id e now) id .contact = some e ∧
        resolvePronoun (addEntity cfg db id e now) id "he" = some e ∧
        resolvePronoun (addEntity cfg db id e now) id "her" = some e)) := by
  have h1 := getById_addEntity cfg db id e now c h
  rw [he] at h1
  have hkey : listKey EntityType.task = EntityKey.contacts := rfl
  rw [hkey] at h1
  refine ⟨_, h1, rfl, rfl, rfl, ?_⟩
  rintro ⟨hnodup, hlen⟩
  have hlist : addEntityToList cfg (c.entities.getList EntityKey.contacts) e =
      c.entities.contacts ++ [e] := by
    rw [addEntityToList, if_neg (by
      show ¬ ((c.entities.getList EntityKey.contacts).any
        (fun x => decide (x.id = e.id))) = true
      rw [show c.entities.getList EntityKey.contacts = c.entities.contacts
        from rfl, hnodup]
      simp)]
    simp only
    rw [if_neg (by
      simp only [List.length_append, List.length_cons, List.length_nil]
      have : (c.entities.getList EntityKey.contacts).length =
          c.entities.contacts.length := rfl
      omega)]
    rfl
  have hlast : (c.entities.contacts ++ [e]).getLast? = some e := by
    rw [List.getLast?_concat]
  refine ⟨?_, ?_, ?_, ?_⟩
  · exact hlist
  · rw [getRecentEntity_contact (addEntity cfg db id e now) id _ h1]
    show ((c.entities.setList EntityKey.contacts
      (addEntityToList cfg (c.entities.getList EntityKey.contacts) e)).getList
        EntityKey.contacts).getLast? = some e
    rw [getList_setList, hlist, hlast]
  · rw [resolvePronoun_singular (addEntity cfg db id e now) id _ h1 "he"
      (by decide) (by decide) (by decide)]
    show ((c.entities.setList EntityKey.contacts
      (addEntityToList cfg (c.entities.getList EntityKey.contacts) e)).getList
        EntityKey.contacts).getLast? = some e
    rw [getList_setList, hlist, hlast]
  · rw [resolvePronoun_singular (addEntity cfg db id e now) id _ h1 "her"
      (by decide) (by decide) (by decide)]
    show ((c.entities.setList EntityKey.contacts
      (addEntityToList cfg (c.entities.getList EntityKey.contacts) e)).getList
        EntityKey.contacts).getLast? = some e
    rw [getList_setList, hlist, hlast]

/-- Witness for C10: the concrete task entity lands in the contacts list
of a fresh context and becomes the referent of "he" and "her". -/
theorem addEntity_task_to_contacts_wit :
    ∃ c2, getById (addEntity cCfg [cCtx] "ctx1" cTask 9) "ctx1" = some c2 ∧
      c2.entities.contacts = addEntityToList cCfg cCtx.entities.contacts cTask ∧
      c2.entities.deals = cCtx.entities.deals ∧
      c2.entities.companies = cCtx.entities.companies ∧
      ((cCtx.entities.contacts.any (fun x => decide (x.id = cTask.id)) = false ∧
        cCtx.entities.contacts.length < cCfg.maxEntitiesPerType) →
       (c2.entities.contacts = cCtx.entities.contacts ++ [cTask] ∧
        getRecentEntity (addEntity cCfg [cCtx] "ctx1" cTask 9) "ctx1" .contact =
          some cTask ∧
        resolvePronoun (addEntity cCfg [cCtx] "ctx1" cTask 9) "ctx1" "he" =
          some cTask ∧
        resolvePronoun (addEntity cCfg [cCtx] "ctx1" cTask 9) "ctx1" "her" =
          some cTask)) :=
  addEntity_task_to_contacts cCfg [cCtx] "ctx1" cCtx cTask 9 (by decide) rfl

end Palantir
